import Mathlib

/-!
Shallow embedding of the GitHub activity-report scripts (`main.py`,
`src/github_collector.py`, `src/report_generator.py`, `src/main.py`,
`src/config.py`) and proofs about the claims of the specification.

Modelling conventions:
* Timestamps (`createdAt`, `updatedAt`, cutoffs, range bounds) are `Int`
  instants; `datetime` comparison becomes integer comparison.  ISO parsing and
  UTC conversion are value-preserving on instants and are not re-modelled.
* Dictionaries coming from the API are normalised into structures carrying the
  fields the code reads.  A nullable field (`comment["user"]`, `issue["type"]`,
  `commit["author"]`) is an `Option`.
* Python code that can raise on the modelled inputs is embedded with `Option` /
  `Except` results: `none` / `.error` is an uncaught exception, not a value.
* An absent or empty URL string is modelled as `""` (both are falsy in the
  Python guards `if issue_url:`).
-/

/-- Projection of an issue as consumed by `find_case_parent`: title, canonical
URL, the `type` field's `name` (when a type object is present) and the label
names.  Label lists arrive from the API in several shapes (list of strings,
list of `{"name": ...}` dicts, `{"nodes": [...]}`); all shapes are read only
through the label names, which is what `labels` stores. -/
structure RIssue where
  title : String
  url : String
  typeName : Option String
  labels : List String
deriving Repr, DecidableEq

/-- Parent-issue payload returned by the REST `/issues/{n}/parent` endpoint, as
read by `find_case_parent`: `title`, `html_url`, optional `type` name, label
names. -/
structure ParentData where
  title : String
  htmlUrl : String
  typeName : Option String
  labels : List String
deriving Repr, DecidableEq

/-- Python `str.lower()`, modelled character-wise. -/
def pyLower (s : String) : String := ⟨s.data.map Char.toLower⟩

/-- Test `issue.get("type", {}).get("name", "").lower() == "case"` guarded by
`if issue.get("type")`: `none` (type absent) is never a Case. -/
def typeIsCase : Option String → Bool
  | some n => pyLower n == "case"
  | none => false

/-- Test `any(label name .lower() == "case" for label in labels)`. -/
def labelsHaveCase (labels : List String) : Bool :=
  labels.any (fun l => pyLower l == "case")

/-- The Case predicate: type field equal to "case" (case-insensitively), or
failing that a label named "case" (case-insensitively). -/
def issueIsCase (i : RIssue) : Bool :=
  typeIsCase i.typeName || labelsHaveCase i.labels

/-- The projection both scripts build from fetched parent data before
returning it or recursing on it: `{"title": ..., "url": html_url,
"type": ..., "labels": [{"name": ...}, ...]}`. -/
def parentProjection (p : ParentData) : RIssue :=
  { title := p.title, url := p.htmlUrl, typeName := p.typeName, labels := p.labels }

namespace GHC

/-- Method `GitHubCollector.find_case_parent(issue, max_depth)` from
`src/github_collector.py`.  `fetch` abstracts `get_parent_issue_via_rest_api`
(keyed by the issue URL; `none` is a missing parent / non-200 response).  The
depth guard `if max_depth <= 0: return None` comes first, before the self
Case checks; Python depths `<= 0` correspond to `0` here. -/
def find_case_parent (fetch : String → Option ParentData) :
    Nat → RIssue → Option RIssue
  | 0, _ => none
  | Nat.succ depth, issue =>
    if typeIsCase issue.typeName then some issue
    else if labelsHaveCase issue.labels then some issue
    else if issue.url ≠ "" then
      match fetch issue.url with
      | some parent =>
        if typeIsCase parent.typeName then some (parentProjection parent)
        else if labelsHaveCase parent.labels then some (parentProjection parent)
        else find_case_parent fetch depth (parentProjection parent)
      | none => none
    else none

/-- Number of REST parent fetches `GHC.find_case_parent` performs along the
same traversal (instrumentation of the same recursion, not a source
function). -/
def find_case_parent_fetches (fetch : String → Option ParentData) :
    Nat → RIssue → Nat
  | 0, _ => 0
  | Nat.succ depth, issue =>
    if typeIsCase issue.typeName then 0
    else if labelsHaveCase issue.labels then 0
    else if issue.url ≠ "" then
      match fetch issue.url with
      | some parent =>
        if typeIsCase parent.typeName then 1
        else if labelsHaveCase parent.labels then 1
        else 1 + find_case_parent_fetches fetch depth (parentProjection parent)
      | none => 1
    else 0

end GHC

namespace MainPy

/-- Function `find_case_parent(issue)` from the top-level `main.py`: the same traversal
as the collector's, but with NO depth parameter and no other cycle guard.  The
unbounded Python recursion is embedded with explicit fuel: `none` means the
recursion has not returned within `fuel` recursive calls (on a cyclic parent
chain it never returns for any fuel; in Python this is unbounded recursion
ending in `RecursionError`, not a `None` result), `some r` means the function
returned `r`. -/
def find_case_parent (fetch : String → Option ParentData) :
    Nat → RIssue → Option (Option RIssue)
  | 0, _ => none
  | Nat.succ fuel, issue =>
    if typeIsCase issue.typeName then some (some issue)
    else if labelsHaveCase issue.labels then some (some issue)
    else if issue.url ≠ "" then
      match fetch issue.url with
      | some parent =>
        if typeIsCase parent.typeName then some (some (parentProjection parent))
        else if labelsHaveCase parent.labels then some (some (parentProjection parent))
        else find_case_parent fetch fuel (parentProjection parent)
      | none => some none
    else some none

/-- Number of REST parent fetches `MainPy.find_case_parent` performs within
the given fuel (instrumentation of the same recursion). -/
def find_case_parent_fetches (fetch : String → Option ParentData) :
    Nat → RIssue → Nat
  | 0, _ => 0
  | Nat.succ fuel, issue =>
    if typeIsCase issue.typeName then 0
    else if labelsHaveCase issue.labels then 0
    else if issue.url ≠ "" then
      match fetch issue.url with
      | some parent =>
        if typeIsCase parent.typeName then 1
        else if labelsHaveCase parent.labels then 1
        else 1 + find_case_parent_fetches fetch fuel (parentProjection parent)
      | none => 1
    else 0

end MainPy

/-! A synthetic 3-cycle of issues, none of which satisfies the Case predicate:
`a`'s parent is `b`, `b`'s parent is `c`, `c`'s parent is `a`. -/

/-- Cycle node `a` (parent payload shape). -/
def cycPA : ParentData := ⟨"Issue A", "a", none, ["task"]⟩

/-- Cycle node `b` (parent payload shape). -/
def cycPB : ParentData := ⟨"Issue B", "b", none, ["task"]⟩

/-- Cycle node `c` (parent payload shape). -/
def cycPC : ParentData := ⟨"Issue C", "c", none, ["task"]⟩

/-- Parent-endpoint environment realising the 3-cycle a → b → c → a. -/
def cycleFetch : String → Option ParentData := fun u =>
  if u = "a" then some cycPB
  else if u = "b" then some cycPC
  else if u = "c" then some cycPA
  else none

/-- The starting issue of the cycle, as an issue record. -/
def cycA : RIssue := ⟨"Issue A", "a", none, ["task"]⟩

/-- Raw comment payload, as read by the collector's comment loops:
`comment["id"]`, `comment["user"]` (nullable; its `login` when present),
`comment["body"]`, `comment["created_at"]`, `comment["html_url"]`, and for
review comments `comment.get("path")` / `comment.get("line")`. -/
structure RawComment where
  id : Nat
  user : Option String
  body : String
  created_at : Int
  html_url : String
  path : Option String
  line : Option Nat
deriving Repr, DecidableEq

/-- Comment record built by `_get_issue_comments` / `_get_issue_comments_exact`. -/
structure CommentRec where
  id : Nat
  author : String
  body : String
  created_at : Int
  url : String
deriving Repr, DecidableEq

/-- Comment record built by `_get_pr_comments` / `_get_pr_comments_exact`
(`type` is `"issue_comment"` or `"review_comment"`; `path`/`line` only for the
latter). -/
structure PRCommentRec where
  id : Nat
  author : String
  body : String
  created_at : Int
  url : String
  ctype : String
  path : Option String
  line : Option Nat
deriving Repr, DecidableEq

/-- Runs the loop body `f` over the list in order.  `f a = none` models an
uncaught Python exception in the body (aborting the whole call), `some none`
models `continue`/no append, `some (some b)` appends `b`. -/
def collectOrFail (f : α → Option (Option β)) : List α → Option (List β)
  | [] => some []
  | a :: l =>
    match f a with
    | none => none
    | some none => collectOrFail f l
    | some (some b) => (collectOrFail f l).map (b :: ·)

namespace GHC

/-- Building one issue-comment record: `comment["user"]["login"]` is read with
no null guard, so a null `user` raises (`none`). -/
def comment_rec (c : RawComment) : Option CommentRec :=
  match c.user with
  | some login => some ⟨c.id, login, c.body, c.created_at, c.html_url⟩
  | none => none

/-- Sorting `sorted(comments, key=lambda x: x["created_at"])`. -/
def sortByCreated (l : List CommentRec) : List CommentRec :=
  l.mergeSort (fun a b => a.created_at ≤ b.created_at)

/-- Loop body of `_get_issue_comments` (rolling mode): note the membership
test is `comment_date >= since_date`. -/
def issue_comment_step (since : Int) (c : RawComment) : Option (Option CommentRec) :=
  if c.created_at ≥ since then
    match comment_rec c with
    | some r => some (some r)
    | none => none
  else some none

/-- Method `GitHubCollector._get_issue_comments(repo, issue_number, since_date)` from
`src/github_collector.py`, applied to the fetched comment list. -/
def _get_issue_comments (since : Int) (comments_data : List RawComment) :
    Option (List CommentRec) :=
  (collectOrFail (issue_comment_step since) comments_data).map sortByCreated

/-- Loop body of `_get_issue_comments_exact`: membership is
`start_time <= comment_date <= end_time`, inclusive at both ends. -/
def issue_comment_step_exact (start stop : Int) (c : RawComment) :
    Option (Option CommentRec) :=
  if start ≤ c.created_at ∧ c.created_at ≤ stop then
    match comment_rec c with
    | some r => some (some r)
    | none => none
  else some none

/-- Method `GitHubCollector._get_issue_comments_exact(repo, issue_number, start_time,
end_time)` applied to the fetched comment list. -/
def _get_issue_comments_exact (start stop : Int) (comments_data : List RawComment) :
    Option (List CommentRec) :=
  (collectOrFail (issue_comment_step_exact start stop) comments_data).map sortByCreated

/-- One `_get_pr_comments*` record with type `"issue_comment"`. -/
def pr_issue_comment_rec (c : RawComment) : Option PRCommentRec :=
  match c.user with
  | some login => some ⟨c.id, login, c.body, c.created_at, c.html_url, "issue_comment", none, none⟩
  | none => none

/-- One `_get_pr_comments*` record with type `"review_comment"` carrying
`path` and `line`. -/
def pr_review_comment_rec (c : RawComment) : Option PRCommentRec :=
  match c.user with
  | some login =>
    some ⟨c.id, login, c.body, c.created_at, c.html_url, "review_comment", c.path, c.line⟩
  | none => none

/-- Sorting `sorted(comments, key=lambda x: x["created_at"])` for PR comment records. -/
def sortPRByCreated (l : List PRCommentRec) : List PRCommentRec :=
  l.mergeSort (fun a b => a.created_at ≤ b.created_at)

/-- Rolling loop body over the issue-API comments of a PR (`>=` test). -/
def pr_issue_comment_step (since : Int) (c : RawComment) : Option (Option PRCommentRec) :=
  if c.created_at ≥ since then
    match pr_issue_comment_rec c with
    | some r => some (some r)
    | none => none
  else some none

/-- Rolling loop body over the review comments of a PR (`>=` test). -/
def pr_review_comment_step (since : Int) (c : RawComment) : Option (Option PRCommentRec) :=
  if c.created_at ≥ since then
    match pr_review_comment_rec c with
    | some r => some (some r)
    | none => none
  else some none

/-- Exact loop body over the issue-API comments of a PR (inclusive both
ends). -/
def pr_issue_comment_step_exact (start stop : Int) (c : RawComment) :
    Option (Option PRCommentRec) :=
  if start ≤ c.created_at ∧ c.created_at ≤ stop then
    match pr_issue_comment_rec c with
    | some r => some (some r)
    | none => none
  else some none

/-- Exact loop body over the review comments of a PR (inclusive both ends). -/
def pr_review_comment_step_exact (start stop : Int) (c : RawComment) :
    Option (Option PRCommentRec) :=
  if start ≤ c.created_at ∧ c.created_at ≤ stop then
    match pr_review_comment_rec c with
    | some r => some (some r)
    | none => none
  else some none

/-- Method `GitHubCollector._get_pr_comments(repo, pr_number, since_date)` (rolling
mode, membership `comment_date >= since_date`) applied to the two fetched
lists: plain issue-API comments and review comments. -/
def _get_pr_comments (since : Int) (comments_data review_comments_data : List RawComment) :
    Option (List PRCommentRec) :=
  match collectOrFail (pr_issue_comment_step since) comments_data with
  | none => none
  | some l1 =>
    match collectOrFail (pr_review_comment_step since) review_comments_data with
    | none => none
    | some l2 => some (sortPRByCreated (l1 ++ l2))

/-- Method `GitHubCollector._get_pr_comments_exact(repo, pr_number, start_time,
end_time)` (membership `start_time <= comment_date <= end_time`). -/
def _get_pr_comments_exact (start stop : Int)
    (comments_data review_comments_data : List RawComment) :
    Option (List PRCommentRec) :=
  match collectOrFail (pr_issue_comment_step_exact start stop) comments_data with
  | none => none
  | some l1 =>
    match collectOrFail (pr_review_comment_step_exact start stop) review_comments_data with
    | none => none
    | some l2 => some (sortPRByCreated (l1 ++ l2))

end GHC

/-- Raw commit payload: `commit["sha"]`, `commit["commit"]["message"]`,
`commit["author"]["login"]` when the author object is non-null,
`commit["commit"]["author"]["name"]`, `commit["commit"]["author"]["date"]`,
`commit["html_url"]`. -/
structure RawCommit where
  sha : String
  message : String
  author : Option String
  commit_author_name : String
  date : Int
  html_url : String
deriving Repr, DecidableEq

/-- The `commit_info` dict appended to a repository's commit list. -/
structure CommitInfo where
  sha : String
  message : String
  author : String
  date : Int
  url : String
  repository : String
  branch : String
deriving Repr, DecidableEq

namespace GHC

/-- The `commit_info` record built in both commit loops:
`commit["author"]["login"] if commit["author"] else
commit["commit"]["author"]["name"]`. -/
def commit_info (repo branch : String) (c : RawCommit) : CommitInfo :=
  ⟨c.sha, c.message, c.author.getD c.commit_author_name, c.date, c.html_url, repo, branch⟩

/-- Rolling-mode commit loop body (`get_commits_for_period`): append unless a
commit with the same SHA is already present
(`if not any(existing["sha"] == commit["sha"] ...)`).  Rolling mode has no
local date test (the API is queried with `since`). -/
def add_commit (repo branch : String) (acc : List CommitInfo) (c : RawCommit) :
    List CommitInfo :=
  if acc.any (fun e => e.sha == c.sha) then acc else acc ++ [commit_info repo branch c]

/-- Exact-mode commit loop body (`get_commits_for_exact_period`): keep only
`start_utc <= commit_date <= end_utc`, then the same SHA dedup check. -/
def add_commit_exact (start stop : Int) (repo branch : String)
    (acc : List CommitInfo) (c : RawCommit) : List CommitInfo :=
  if start ≤ c.date ∧ c.date ≤ stop then add_commit repo branch acc c
  else acc

/-- Sorting `repo_commits.sort(key=lambda x: x["date"], reverse=True)` (the source
sorts by the ISO date string; on instants that is the same order). -/
def sortCommitsDesc (l : List CommitInfo) : List CommitInfo :=
  l.mergeSort (fun a b => b.date ≤ a.date)

/-- One repository's commit collection in `get_commits_for_period` (rolling):
the dedup accumulator runs across all branches of the repository
(`branch_commits` lists each branch's fetched commits in fetch order), then
the list is sorted newest-first. -/
def get_commits_for_repo (branch_commits : List (String × List RawCommit))
    (repo : String) : List CommitInfo :=
  sortCommitsDesc
    (branch_commits.foldl (fun acc bc => bc.2.foldl (add_commit repo bc.1) acc) [])

/-- One repository's commit collection in `get_commits_for_exact_period`. -/
def get_commits_for_repo_exact (start stop : Int)
    (branch_commits : List (String × List RawCommit)) (repo : String) : List CommitInfo :=
  sortCommitsDesc
    (branch_commits.foldl (fun acc bc => bc.2.foldl (add_commit_exact start stop repo bc.1) acc) [])

end GHC

/-- Project-column issue dict built by `get_project_issues_in_columns`. -/
structure PIssue where
  number : Nat
  title : String
  url : String
  state : String
  author : String
  created_at : Int
  updated_at : Int
  repository : String
  labels : List String
  assignees : List String
  project_column : Option String
deriving Repr, DecidableEq

/-- A project issue with its recent comments attached
(`issue["comments"] = comments`). -/
structure PIssueOut where
  issue : PIssue
  comments : List CommentRec
deriving Repr, DecidableEq

/-- Raw repository issue from the REST issues listing (fallback branch of
`get_issues_for_period`).  `is_pull_request` models the presence of the
`"pull_request"` key. -/
structure RawIssue where
  number : Nat
  title : String
  html_url : String
  state : String
  user : String
  created_at : Int
  updated_at : Int
  labels : List String
  assignees : List String
  is_pull_request : Bool
deriving Repr, DecidableEq

/-- The `issue_info` dict built by the fallback branch of `get_issues_for_period`. -/
structure IssueInfo where
  number : Nat
  title : String
  url : String
  state : String
  author : String
  created_at : Int
  updated_at : Int
  comments : List CommentRec
  repository : String
  labels : List String
  assignees : List String
deriving Repr, DecidableEq

namespace GHC

/-- Per-issue body of the project branch of `get_issues_for_period`: keep the
issue iff `issue_updated >= since_date` and its filtered comment list is
non-empty.  `commentsOf` abstracts the per-issue comments HTTP fetch. -/
def project_issue_include (commentsOf : PIssue → List RawComment) (since : Int)
    (issue : PIssue) : Option (Option PIssueOut) :=
  if issue.updated_at ≥ since then
    match _get_issue_comments since (commentsOf issue) with
    | none => none
    | some cs => if cs.isEmpty then some none else some (some ⟨issue, cs⟩)
  else some none

/-- Project branch of `GitHubCollector.get_issues_for_period`: the source
groups the kept issues into a dict keyed by repository; the flat kept list (in
source iteration order) is modelled, which preserves exactly which issues are
retained. -/
def get_issues_for_period_project (commentsOf : PIssue → List RawComment) (since : Int)
    (project_issues : List PIssue) : Option (List PIssueOut) :=
  collectOrFail (project_issue_include commentsOf since) project_issues

/-- Per-issue body of the fallback branch of `get_issues_for_period` for one
repository: skip pull requests, skip issues with `updated_at < since`, keep
iff the filtered comment list is non-empty. -/
def repo_issue_include (commentsOf : RawIssue → List RawComment) (since : Int)
    (repo : String) (issue : RawIssue) : Option (Option IssueInfo) :=
  if issue.is_pull_request then some none
  else if issue.updated_at < since then some none
  else
    match _get_issue_comments since (commentsOf issue) with
    | none => none
    | some cs =>
      if cs.isEmpty then some none
      else some (some ⟨issue.number, issue.title, issue.html_url, issue.state, issue.user,
        issue.created_at, issue.updated_at, cs, repo, issue.labels, issue.assignees⟩)

/-- Fallback branch of `get_issues_for_period` for one repository: a single
issues-listing request of at most `per_page` items, then the per-issue loop. -/
def get_issues_for_repo (commentsOf : RawIssue → List RawComment) (since : Int)
    (per_page : Nat) (issues_listing : List RawIssue) (repo : String) :
    Option (List IssueInfo) :=
  collectOrFail (repo_issue_include commentsOf since repo) (issues_listing.take per_page)

end GHC

/-- Raw pull request from the REST pulls listing (sorted by `updated`,
descending). -/
structure RawPR where
  number : Nat
  title : String
  html_url : String
  state : String
  user : String
  created_at : Int
  updated_at : Int
deriving Repr, DecidableEq

/-- The `pr_info` dict built by `get_pull_requests_for_period` /
`get_pull_requests_for_exact_period`. -/
structure PRInfo where
  number : Nat
  title : String
  url : String
  state : String
  author : String
  created_at : Int
  updated_at : Int
  comments : List PRCommentRec
  repository : String
  recently_created : Bool
deriving Repr, DecidableEq

namespace GHC

/-- Per-PR body of `get_pull_requests_for_period`: skip PRs updated before
the window, fetch comments (rolling filter), include iff there are in-window
comments or the PR itself was recently created.  `issueCommentsOf` /
`reviewCommentsOf` abstract the per-PR comment fetches. -/
def pr_include (since : Int) (issueCommentsOf reviewCommentsOf : RawPR → List RawComment)
    (repo : String) (pr : RawPR) : Option (Option PRInfo) :=
  if pr.updated_at < since then some none
  else
    match _get_pr_comments since (issueCommentsOf pr) (reviewCommentsOf pr) with
    | none => none
    | some comments =>
      if ¬ comments.isEmpty ∨ pr.created_at ≥ since then
        some (some ⟨pr.number, pr.title, pr.html_url, pr.state, pr.user,
          pr.created_at, pr.updated_at, comments, repo, decide (pr.created_at ≥ since)⟩)
      else some none

/-- Method `GitHubCollector.get_pull_requests_for_period` for one repository.  The
source issues exactly ONE listing request with `per_page` and no page loop, so
only the first `per_page` entries of the updated-descending listing are ever
examined — modelled by `listing.take per_page`. -/
def get_pull_requests_for_period (listing : List RawPR) (per_page : Nat) (since : Int)
    (issueCommentsOf reviewCommentsOf : RawPR → List RawComment) (repo : String) :
    Option (List PRInfo) :=
  collectOrFail (pr_include since issueCommentsOf reviewCommentsOf repo) (listing.take per_page)

/-- Per-PR body of `get_pull_requests_for_exact_period`; `recently_created`
is `start_utc <= pr_created <= end_utc`. -/
def pr_include_exact (start stop : Int)
    (issueCommentsOf reviewCommentsOf : RawPR → List RawComment) (repo : String)
    (pr : RawPR) : Option (Option PRInfo) :=
  if pr.updated_at < start then some none
  else
    match _get_pr_comments_exact start stop (issueCommentsOf pr) (reviewCommentsOf pr) with
    | none => none
    | some comments =>
      if ¬ comments.isEmpty ∨ (start ≤ pr.created_at ∧ pr.created_at ≤ stop) then
        some (some ⟨pr.number, pr.title, pr.html_url, pr.state, pr.user,
          pr.created_at, pr.updated_at, comments, repo,
          decide (start ≤ pr.created_at ∧ pr.created_at ≤ stop)⟩)
      else some none

/-- Method `GitHubCollector.get_pull_requests_for_exact_period` for one repository:
the same single-page listing. -/
def get_pull_requests_for_exact_period (listing : List RawPR) (per_page : Nat)
    (start stop : Int) (issueCommentsOf reviewCommentsOf : RawPR → List RawComment)
    (repo : String) : Option (List PRInfo) :=
  collectOrFail (pr_include_exact start stop issueCommentsOf reviewCommentsOf repo)
    (listing.take per_page)

end GHC

/-- GraphQL comment node as read by `collect_recent_comments_and_prs`:
`author` (nullable; its `login` when present), `createdAt`, `body`. -/
structure GComment where
  author : Option String
  createdAt : Int
  body : String
deriving Repr, DecidableEq

/-- Project item content processed by `collect_recent_comments_and_prs`
(`get_items_with_status` query): `__typename`, `url`, `title`, comment nodes.
The query requests no `type` field and no labels, so `find_case_parent` sees
`typeName = none` and `labels = []` for these items; both fields are kept so
the resolver input is the item's own projection. -/
structure MIssue where
  is_issue : Bool
  url : String
  title : String
  typeName : Option String
  labels : List String
  comments : List GComment
deriving Repr, DecidableEq

/-- The resolver's view of a project item. -/
def MIssue.proj (i : MIssue) : RIssue := ⟨i.title, i.url, i.typeName, i.labels⟩

/-- One element of the JSON `recent_comments` list. -/
structure CommentEntry where
  ctype : String
  issue_url : String
  issue_title : String
  case_url : Option String
  case_title : Option String
  author : String
  created_at : Int
  body : String
deriving Repr, DecidableEq

/-- Expression `comment["author"]["login"] if comment["author"] else "unknown"`. -/
def authorOr (a : Option String) : String := a.getD "unknown"

namespace MainPy

/-- Issue-comment part of `collect_recent_comments_and_prs` for one project
item: resolve the Case parent (`resolve` abstracts `find_case_parent`, whose
result is defaulted to a record with null title/url), then keep exactly the
comments with `created_at > YESTERDAY` (strict). -/
def issue_comment_entries (resolve : RIssue → Option RIssue) (cutoff : Int)
    (item : MIssue) : List CommentEntry :=
  if item.is_issue then
    let case_parent := resolve item.proj
    item.comments.filterMap (fun c =>
      if c.createdAt > cutoff then
        some ⟨"issue_comment", item.url, item.title, case_parent.map (·.url),
          case_parent.map (·.title), authorOr c.author, c.createdAt, c.body⟩
      else none)
  else []

/-- The `recent_comments` list of `collect_recent_comments_and_prs`. -/
def collect_recent_comments (resolve : RIssue → Option RIssue) (cutoff : Int)
    (issues : List MIssue) : List CommentEntry :=
  issues.flatMap (issue_comment_entries resolve cutoff)

end MainPy

/-- A `requestedReviewer` node (`__typename` and `login`). -/
structure Reviewer where
  typename : String
  login : String
deriving Repr, DecidableEq

/-- A review node: author (nullable), `createdAt`, review state, body, and its
nested comment nodes. -/
structure GReview where
  author : Option String
  createdAt : Int
  rstate : String
  body : String
  comments : List GComment
deriving Repr, DecidableEq

/-- Pull-request node from `get_all_org_prs`; `timeline` holds the
`createdAt` instants of its `REVIEW_REQUESTED_EVENT` items. -/
structure GPullRequest where
  url : String
  title : String
  number : Nat
  body : String
  state : String
  is_draft : Bool
  createdAt : Int
  updatedAt : Int
  reviewRequests : List Reviewer
  reviews : List GReview
  comments : List GComment
  timeline : List Int
deriving Repr, DecidableEq

/-- One element of a PR entry's `comments` list. -/
structure PRCommentEntry where
  author : String
  created_at : Int
  body : String
  is_recent : Bool
deriving Repr, DecidableEq

/-- One element of a PR entry's `review_comments` list. -/
structure ReviewCommentEntry where
  author : String
  created_at : Int
  rstate : String
  body : String
  is_recent : Bool
deriving Repr, DecidableEq

/-- One element of the JSON `recent_pull_requests` list. -/
structure PREntry where
  pr_url : String
  pr_title : String
  pr_number : Nat
  description : String
  state : String
  is_draft : Bool
  created_at : Int
  updated_at : Int
  reviewers : List String
  comments : List PRCommentEntry
  review_comments : List ReviewCommentEntry
deriving Repr, DecidableEq

namespace MainPy

/-- Function `is_pr_sent_for_review_recently`: some `REVIEW_REQUESTED_EVENT` with
`created_at > YESTERDAY` (strict). -/
def is_pr_sent_for_review_recently (cutoff : Int) (pr : GPullRequest) : Bool :=
  pr.timeline.any (fun t => decide (t > cutoff))

/-- A PR comment entry: every comment is kept, flagged
`is_recent = created_at > YESTERDAY` (strict). -/
def mk_pr_comment (cutoff : Int) (c : GComment) : PRCommentEntry :=
  ⟨authorOr c.author, c.createdAt, c.body, decide (c.createdAt > cutoff)⟩

/-- Review-comment entries of one review: the review body itself when
non-empty, then its nested comments with state `"COMMENT"`; all flagged with
the strict `is_recent` test. -/
def review_comment_entries (cutoff : Int) (r : GReview) : List ReviewCommentEntry :=
  (if r.body ≠ "" then
    [⟨authorOr r.author, r.createdAt, r.rstate, r.body, decide (r.createdAt > cutoff)⟩]
  else [])
  ++ r.comments.map (fun c =>
    ⟨authorOr c.author, c.createdAt, "COMMENT", c.body, decide (c.createdAt > cutoff)⟩)

/-- PR part of `collect_recent_comments_and_prs` for one PR: kept iff recently
sent for review; reviewers keep only `User`-typed requested reviewers. -/
def pr_entry (cutoff : Int) (pr : GPullRequest) : Option PREntry :=
  if is_pr_sent_for_review_recently cutoff pr then
    some ⟨pr.url, pr.title, pr.number, pr.body, pr.state, pr.is_draft,
      pr.createdAt, pr.updatedAt,
      (pr.reviewRequests.filter (fun rv => rv.typename == "User")).map (·.login),
      pr.comments.map (mk_pr_comment cutoff),
      pr.reviews.flatMap (review_comment_entries cutoff)⟩
  else none

/-- The `recent_pull_requests` list of `collect_recent_comments_and_prs`. -/
def recent_prs (cutoff : Int) (prs : List GPullRequest) : List PREntry :=
  prs.filterMap (pr_entry cutoff)

end MainPy

/-- Incident issue content from `get_incidents`. -/
structure GIncident where
  url : String
  title : String
  number : Nat
  state : String
  body : String
  createdAt : Int
  updatedAt : Int
  labels : List String
  assignees : List String
  comments : List GComment
deriving Repr, DecidableEq

/-- One element of an incident entry's `comments` list. -/
structure IncidentCommentEntry where
  author : String
  created_at : Int
  body : String
  is_recent : Bool
deriving Repr, DecidableEq

/-- One element of the JSON `recent_incidents` list. -/
structure IncidentEntry where
  incident_url : String
  incident_title : String
  incident_number : Nat
  state : String
  body : String
  created_at : Int
  updated_at : Int
  labels : List String
  assignees : List String
  comments : List IncidentCommentEntry
  recent_comments_count : Nat
deriving Repr, DecidableEq

namespace MainPy

/-- Incident part of `collect_recent_comments_and_prs` for one incident: all
comments are kept with the strict `is_recent` flag; the incident itself is
kept iff it has a comment with `created_at > YESTERDAY` or
`updated_at > YESTERDAY`. -/
def incident_entry (cutoff : Int) (inc : GIncident) : Option IncidentEntry :=
  let ics := inc.comments.map (fun c =>
    (⟨authorOr c.author, c.createdAt, c.body, decide (c.createdAt > cutoff)⟩ :
      IncidentCommentEntry))
  let cnt := (inc.comments.filter (fun c => decide (c.createdAt > cutoff))).length
  let has_recent : Bool :=
    inc.comments.any (fun c => decide (c.createdAt > cutoff)) || decide (inc.updatedAt > cutoff)
  if has_recent then
    some ⟨inc.url, inc.title, inc.number, inc.state, inc.body, inc.createdAt,
      inc.updatedAt, inc.labels, inc.assignees, ics, cnt⟩
  else none

/-- The `recent_incidents` list of `collect_recent_comments_and_prs`. -/
def recent_incidents (cutoff : Int) (incidents : List GIncident) : List IncidentEntry :=
  incidents.filterMap (incident_entry cutoff)

end MainPy

/-- Python whitespace class `\s` (ASCII part), also what `str.strip()`
removes. -/
def pyIsSpace (c : Char) : Bool :=
  c = ' ' || c = '\t' || c = '\n' || c = '\r' || c = '\x0b' || c = '\x0c'

/-- Python `str.strip()` on the character list. -/
def pyStrip (l : List Char) : List Char :=
  ((l.dropWhile pyIsSpace).reverse.dropWhile pyIsSpace).reverse

/-- Index of the last `'\n'` in a character list, if any. -/
def lastNewlinePos : List Char → Option Nat
  | [] => none
  | c :: rest =>
    match lastNewlinePos rest with
    | some t => some (t + 1)
    | none => if c = '\n' then some 0 else none

/-- Python `re.sub(r'\n\s*\n', '\n\n', ...)`: leftmost non-overlapping matches of a
newline, greedy whitespace, then (after backtracking) a final newline — i.e.
at each `'\n'` whose following whitespace run contains another `'\n'`, the
span up to the LAST `'\n'` of that run is replaced by `"\n\n"` and scanning
resumes after it. -/
def collapseBlankRuns : List Char → List Char
  | [] => []
  | c :: rest =>
    if c = '\n' then
      match lastNewlinePos (rest.takeWhile pyIsSpace) with
      | some t => '\n' :: '\n' :: collapseBlankRuns (rest.drop (t + 1))
      | none => '\n' :: collapseBlankRuns rest
    else c :: collapseBlankRuns rest
termination_by l => l.length
decreasing_by
  · simp only [List.length_drop, List.length_cons]
    omega
  · simp
  · simp

namespace RG

/-- Method `ReportGenerator._format_comment`: strip, collapse blank-line runs, then
truncate to 500 characters plus `"..."` when longer than 500. -/
def _format_comment (comment_body : String) : String :=
  if (collapseBlankRuns (pyStrip comment_body.data)).length > 500 then
    ⟨(collapseBlankRuns (pyStrip comment_body.data)).take 500 ++ "...".data⟩
  else ⟨collapseBlankRuns (pyStrip comment_body.data)⟩

/-- The dict key `f"[{case_name}]({case_url})"` used to group issues by
Case. -/
def case_key (pc : RIssue) : String := "[" ++ pc.title ++ "](" ++ pc.url ++ ")"

/-- Method `ReportGenerator._generate_issues_section`, reduced to which
(case, issue) pairs are grouped: issues with an empty attached comment list
are skipped, the rest are resolved with `GitHubCollector.find_case_parent`
(default depth 10) on `{title, url, labels}` (no type field in this dict),
and issues with no resolved Case are dropped from the Case-grouped view. -/
def issues_section_pairs (fetch : String → Option ParentData)
    (issues_data : List PIssueOut) : List (String × PIssueOut) :=
  issues_data.filterMap (fun io =>
    if io.comments.isEmpty then none
    else
      match GHC.find_case_parent fetch 10 ⟨io.issue.title, io.issue.url, none, io.issue.labels⟩ with
      | some pc => some (case_key pc, io)
      | none => none)

end RG

/-- The attributes `Config.__init__` (src/config.py) assigns.  The parsed
`settings.json` blob is abstracted away (its values reach the modelled
functions as explicit parameters).  Note there is NO `zulip_email`,
`zulip_key`, `zulip_stream` or `zulip_topic` attribute, and the class defines
no `__getattr__`. -/
structure Config where
  github_token : String
  github_org : Option String
  github_owner : Option String
  repositories : Option (List String)
  team_members : List String
  project_number : Option Nat
  incident_project_number : Option Nat
  columns : List String
  report_days_back : Nat
  output_directory : String
  report_filename_prefix : String
  telegram_bot_token : Option String
  telegram_chat_id : Option String
deriving Repr

/-- Reading `config.zulip_email`: the attribute is never assigned, so the
read raises `AttributeError`. -/
def Config.zulip_email_attr (_ : Config) : Except String String :=
  .error "AttributeError: Config object has no attribute zulip_email"

namespace RG

/-- Method `ReportGenerator.send_to_telegram`: returns False when the bot token or
chat id is missing; everything else is inside try/except blocks that return
a Bool, so the call never raises.  `sendOutcome` abstracts the guarded
upload's success. -/
def send_to_telegram (cfg : Config) (sendOutcome : Bool) : Bool :=
  if cfg.telegram_bot_token.isNone || cfg.telegram_chat_id.isNone then false
  else sendOutcome

/-- Method `ReportGenerator.send_to_zulip`: the debug-print block
(report_generator.py lines 299–303) reads `config.zulip_email` BEFORE the
incomplete-config guard and before the `try` block, so with the repository's
`Config` the call raises `AttributeError` instead of returning a Bool.
`postOutcome` abstracts the guarded HTTP post that would follow. -/
def send_to_zulip (cfg : Config) (postOutcome : Bool) : Except String Bool := do
  let _email ← cfg.zulip_email_attr
  pure postOutcome

end RG

namespace SrcMain

/-- Notification phase of `main()` in src/main.py, after `save_report`
succeeded: the Telegram result only selects a log line; the Zulip call's
exception (if any) escapes to the surrounding handler. -/
def notifications (cfg : Config) (telegram_flag zulip_flag : Bool)
    (telegramOutcome zulipPostOutcome : Bool) : Except String Unit := do
  if telegram_flag then
    let _ok := RG.send_to_telegram cfg telegramOutcome
    pure ()
  if zulip_flag then
    let _ok ← RG.send_to_zulip cfg zulipPostOutcome
    pure ()

/-- Exit code of a run whose collection and report-file write succeeded: the
whole of `main()` is wrapped in `try ... except Exception: sys.exit(1)`, so an
escaped exception from the notification phase turns into exit code 1,
otherwise the run falls through to the summary and exits 0. -/
def main_exit_code (cfg : Config) (telegram_flag zulip_flag : Bool)
    (telegramOutcome zulipPostOutcome : Bool) : Nat :=
  match notifications cfg telegram_flag zulip_flag telegramOutcome zulipPostOutcome with
  | .ok _ => 0
  | .error _ => 1

end SrcMain

/-- One unfolding step of `MainPy.find_case_parent` through a non-Case issue
whose fetched parent is also not a Case. -/
theorem mainPy_step (fetch : String → Option ParentData) (fuel : Nat) (issue : RIssue)
    (h1 : typeIsCase issue.typeName = false) (h2 : labelsHaveCase issue.labels = false)
    (h3 : ¬ issue.url = "") (parent : ParentData) (hf : fetch issue.url = some parent)
    (h4 : typeIsCase parent.typeName = false) (h5 : labelsHaveCase parent.labels = false) :
    MainPy.find_case_parent fetch (fuel + 1) issue =
      MainPy.find_case_parent fetch fuel (parentProjection parent) := by
  simp [MainPy.find_case_parent, h1, h2, h3, hf, h4, h5]

/-- One unfolding step of `MainPy.find_case_parent_fetches` through a non-Case
issue whose fetched parent is also not a Case. -/
theorem mainPy_fetches_step (fetch : String → Option ParentData) (fuel : Nat) (issue : RIssue)
    (h1 : typeIsCase issue.typeName = false) (h2 : labelsHaveCase issue.labels = false)
    (h3 : ¬ issue.url = "") (parent : ParentData) (hf : fetch issue.url = some parent)
    (h4 : typeIsCase parent.typeName = false) (h5 : labelsHaveCase parent.labels = false) :
    MainPy.find_case_parent_fetches fetch (fuel + 1) issue =
      1 + MainPy.find_case_parent_fetches fetch fuel (parentProjection parent) := by
  simp [MainPy.find_case_parent_fetches, h1, h2, h3, hf, h4, h5]

/-- On the 3-cycle, `main.py`'s depth-unbounded `find_case_parent` has not
returned after any number of recursive calls, from any of the three nodes. -/
theorem mainPy_cycle_never_returns (fuel : Nat) :
    MainPy.find_case_parent cycleFetch fuel (parentProjection cycPA) = none ∧
    MainPy.find_case_parent cycleFetch fuel (parentProjection cycPB) = none ∧
    MainPy.find_case_parent cycleFetch fuel (parentProjection cycPC) = none := by
  induction fuel with
  | zero => exact ⟨rfl, rfl, rfl⟩
  | succ n ih =>
    refine ⟨?_, ?_, ?_⟩
    · rw [mainPy_step cycleFetch n (parentProjection cycPA) (by decide) (by decide)
        (by decide) cycPB (by decide) (by decide) (by decide)]
      exact ih.2.1
    · rw [mainPy_step cycleFetch n (parentProjection cycPB) (by decide) (by decide)
        (by decide) cycPC (by decide) (by decide) (by decide)]
      exact ih.2.2
    · rw [mainPy_step cycleFetch n (parentProjection cycPC) (by decide) (by decide)
        (by decide) cycPA (by decide) (by decide) (by decide)]
      exact ih.1

/-- On the 3-cycle, each unit of fuel spends exactly one parent fetch: the
number of fetches is unbounded. -/
theorem mainPy_cycle_fetches (fuel : Nat) :
    MainPy.find_case_parent_fetches cycleFetch fuel (parentProjection cycPA) = fuel ∧
    MainPy.find_case_parent_fetches cycleFetch fuel (parentProjection cycPB) = fuel ∧
    MainPy.find_case_parent_fetches cycleFetch fuel (parentProjection cycPC) = fuel := by
  induction fuel with
  | zero => exact ⟨rfl, rfl, rfl⟩
  | succ n ih =>
    refine ⟨?_, ?_, ?_⟩
    · rw [mainPy_fetches_step cycleFetch n (parentProjection cycPA) (by decide) (by decide)
        (by decide) cycPB (by decide) (by decide) (by decide)]
      rw [ih.2.1]; omega
    · rw [mainPy_fetches_step cycleFetch n (parentProjection cycPB) (by decide) (by decide)
        (by decide) cycPC (by decide) (by decide) (by decide)]
      rw [ih.2.2]; omega
    · rw [mainPy_fetches_step cycleFetch n (parentProjection cycPC) (by decide) (by decide)
        (by decide) cycPA (by decide) (by decide) (by decide)]
      rw [ih.1]; omega

/-- The collector's `find_case_parent` performs at most `max_depth` parent
fetches, for every fetch environment, depth and issue. -/
theorem ghc_fetches_le_depth (fetch : String → Option ParentData) :
    ∀ (d : Nat) (issue : RIssue), GHC.find_case_parent_fetches fetch d issue ≤ d := by
  intro d
  induction d with
  | zero => intro issue; simp [GHC.find_case_parent_fetches]
  | succ n ih =>
    intro issue
    simp only [GHC.find_case_parent_fetches]
    split
    · omega
    · split
      · omega
      · split
        · cases fetch issue.url with
          | some parent =>
            simp only []
            split
            · omega
            · split
              · omega
              · have := ih (parentProjection parent)
                omega
          | none => simp
        · omega

/-- A Case-satisfying issue is returned as itself by the collector's resolver
whenever the depth guard is not hit. -/
theorem ghc_case_self (fetch : String → Option ParentData) (d : Nat) (issue : RIssue)
    (h : issueIsCase issue = true) :
    GHC.find_case_parent fetch (d + 1) issue = some issue := by
  rw [issueIsCase, Bool.or_eq_true] at h
  simp only [GHC.find_case_parent]
  rcases h with h | h
  · rw [if_pos h]
  · by_cases ht : typeIsCase issue.typeName = true
    · rw [if_pos ht]
    · rw [if_neg ht, if_pos h]

/-- A Case-satisfying issue costs zero parent fetches in the collector's
resolver whenever the depth guard is not hit. -/
theorem ghc_case_self_fetches (fetch : String → Option ParentData) (d : Nat) (issue : RIssue)
    (h : issueIsCase issue = true) :
    GHC.find_case_parent_fetches fetch (d + 1) issue = 0 := by
  rw [issueIsCase, Bool.or_eq_true] at h
  simp only [GHC.find_case_parent_fetches]
  rcases h with h | h
  · rw [if_pos h]
  · by_cases ht : typeIsCase issue.typeName = true
    · rw [if_pos ht]
    · rw [if_neg ht, if_pos h]

/-- A Case-satisfying issue is returned as itself by `main.py`'s resolver
within one step. -/
theorem mainPy_case_self (fetch : String → Option ParentData) (fuel : Nat) (issue : RIssue)
    (h : issueIsCase issue = true) :
    MainPy.find_case_parent fetch (fuel + 1) issue = some (some issue) := by
  rw [issueIsCase, Bool.or_eq_true] at h
  simp only [MainPy.find_case_parent]
  rcases h with h | h
  · rw [if_pos h]
  · by_cases ht : typeIsCase issue.typeName = true
    · rw [if_pos ht]
    · rw [if_neg ht, if_pos h]

/-- C1 (corrected).  Depth-bounded termination holds for the collector's
resolver: `GitHubCollector.find_case_parent` performs at most `max_depth`
parent fetches for every fetch environment, depth and issue, and on the
synthetic 3-cycle with no Case anywhere it returns `None` (at the
conventional depth 10).  The script variant `find_case_parent` in `main.py`,
however, has no depth parameter: on the same 3-cycle it has not returned
within ANY number of recursive parent fetches. -/
theorem c1_case_resolution_depth_bound :
    (∀ (fetch : String → Option ParentData) (d : Nat) (issue : RIssue),
      GHC.find_case_parent_fetches fetch d issue ≤ d)
    ∧ GHC.find_case_parent cycleFetch 10 cycA = none
    ∧ (∀ fuel : Nat, MainPy.find_case_parent cycleFetch fuel cycA = none) :=
  ⟨fun fetch => ghc_fetches_le_depth fetch, by decide,
    fun fuel => (mainPy_cycle_never_returns fuel).1⟩

/-- C1 counterexample to the claim as stated: on the synthetic 3-cycle the
`main.py` variant of `find_case_parent` (which takes no `maxDepth`) has not
returned `None` — or anything — after 100 recursive parent fetches, having
performed all 100 fetches its budget allowed, far beyond the conventional
depth limit of 10. -/
theorem c1_main_variant_counterexample :
    MainPy.find_case_parent cycleFetch 100 cycA = none ∧
    MainPy.find_case_parent_fetches cycleFetch 100 cycA = 100 :=
  ⟨(mainPy_cycle_never_returns 100).1, (mainPy_cycle_fetches 100).1⟩

/-- C4 (corrected).  For every positive `max_depth`, an issue already
satisfying the Case predicate is returned as itself by both resolver variants
with zero parent fetches; the correction is that this fails at
`max_depth = 0` (and, in Python, any `max_depth <= 0`), where the collector's
depth guard precedes the self checks. -/
theorem c4_case_resolution_reflexive :
    (∀ (fetch : String → Option ParentData) (d : Nat) (issue : RIssue),
      issueIsCase issue = true →
      GHC.find_case_parent fetch (d + 1) issue = some issue ∧
      GHC.find_case_parent_fetches fetch (d + 1) issue = 0)
    ∧ (∀ (fetch : String → Option ParentData) (fuel : Nat) (issue : RIssue),
      issueIsCase issue = true →
      MainPy.find_case_parent fetch (fuel + 1) issue = some (some issue)) :=
  ⟨fun fetch d issue h => ⟨ghc_case_self fetch d issue h, ghc_case_self_fetches fetch d issue h⟩,
    fun fetch fuel issue h => mainPy_case_self fetch fuel issue h⟩

/-- C4 witness: a concrete Case-typed issue at depth 10 resolves to itself
with zero fetches, even under a fetch environment with no parents at all. -/
theorem c4_witness :
    issueIsCase ⟨"Auth Overhaul", "https://x/cases/1", some "Case", []⟩ = true ∧
    GHC.find_case_parent (fun _ => none) 10 ⟨"Auth Overhaul", "https://x/cases/1", some "Case", []⟩ =
      some ⟨"Auth Overhaul", "https://x/cases/1", some "Case", []⟩ ∧
    GHC.find_case_parent_fetches (fun _ => none) 10 ⟨"Auth Overhaul", "https://x/cases/1", some "Case", []⟩ = 0 ∧
    MainPy.find_case_parent (fun _ => none) 1 ⟨"Auth Overhaul", "https://x/cases/1", some "Case", []⟩ =
      some (some ⟨"Auth Overhaul", "https://x/cases/1", some "Case", []⟩) := by
  have h1 := (c4_case_resolution_reflexive.1 (fun _ => none) 9
    ⟨"Auth Overhaul", "https://x/cases/1", some "Case", []⟩ (by decide))
  have h2 := c4_case_resolution_reflexive.2 (fun _ => none) 0
    ⟨"Auth Overhaul", "https://x/cases/1", some "Case", []⟩ (by decide)
  exact ⟨by decide, h1.1, h1.2, h2⟩

/-- C4 counterexample to "for every maxDepth": at `max_depth = 0` the
collector returns `None` even for an issue whose type field is "Case",
because the depth guard `if max_depth <= 0: return None` precedes the self
Case checks. -/
theorem c4_depth_zero_counterexample :
    issueIsCase ⟨"Auth Overhaul", "https://x/cases/1", some "Case", []⟩ = true ∧
    GHC.find_case_parent (fun _ => none) 0 ⟨"Auth Overhaul", "https://x/cases/1", some "Case", []⟩ = none :=
  ⟨by decide, rfl⟩

/-- Membership in a successful `collectOrFail` run: exactly the values the
loop body appended. -/
theorem collectOrFail_mem {α β : Type _} {f : α → Option (Option β)} :
    ∀ {l : List α} {out : List β}, collectOrFail f l = some out →
      ∀ {b : β}, b ∈ out ↔ ∃ a ∈ l, f a = some (some b) := by
  intro l
  induction l with
  | nil =>
    intro out h b
    simp only [collectOrFail, Option.some.injEq] at h
    subst h
    simp
  | cons a l ih =>
    intro out h b
    simp only [collectOrFail] at h
    cases hfa : f a with
    | none => rw [hfa] at h; cases h
    | some o =>
      rw [hfa] at h
      cases o with
      | none =>
        rw [ih h]
        simp only [List.mem_cons, hfa]
        constructor
        · rintro ⟨x, hx, hfx⟩; exact ⟨x, Or.inr hx, hfx⟩
        · rintro ⟨x, hx, hfx⟩
          rcases hx with rfl | hx
          · rw [hfa] at hfx; simp at hfx
          · exact ⟨x, hx, hfx⟩
      | some b' =>
        cases hrest : collectOrFail f l with
        | none => rw [hrest] at h; cases h
        | some out' =>
          rw [hrest] at h
          simp at h
          subst h
          simp only [List.mem_cons, ih hrest]
          constructor
          · rintro (rfl | ⟨x, hx, hfx⟩)
            · exact ⟨a, Or.inl rfl, hfa⟩
            · exact ⟨x, Or.inr hx, hfx⟩
          · rintro ⟨x, hx, hfx⟩
            rcases hx with rfl | hx
            · rw [hfa] at hfx
              simp only [Option.some.injEq] at hfx
              exact Or.inl hfx.symm
            · exact Or.inr ⟨x, hx, hfx⟩

/-- If the loop body raises on some element of the list, the whole
`collectOrFail` run raises. -/
theorem collectOrFail_eq_none {α β : Type _} {f : α → Option (Option β)} {a : α} :
    ∀ {l : List α}, a ∈ l → f a = none → collectOrFail f l = none := by
  intro l
  induction l with
  | nil => intro h; cases h
  | cons x l ih =>
    intro hmem hfa
    rcases List.mem_cons.mp hmem with rfl | hmem
    · simp [collectOrFail, hfa]
    · simp only [collectOrFail]
      cases hfx : f x with
      | none => rfl
      | some o =>
        cases o with
        | none => exact ih hmem hfa
        | some b => rw [ih hmem hfa]; rfl

/-- The record builder keeps the comment's timestamp. -/
theorem comment_rec_created_at {c : RawComment} {r : CommentRec}
    (h : GHC.comment_rec c = some r) : r.created_at = c.created_at := by
  unfold GHC.comment_rec at h
  cases hu : c.user with
  | none => rw [hu] at h; cases h
  | some login => rw [hu] at h; simp only [Option.some.injEq] at h; subst h; rfl

/-- Characterisation of the rolling issue-comment loop body: a record is
appended iff the comment satisfies `created_at >= since` (inclusive) and its
user is non-null. -/
theorem issue_comment_step_eq {since : Int} {c : RawComment} {r : CommentRec} :
    GHC.issue_comment_step since c = some (some r) ↔
      since ≤ c.created_at ∧ GHC.comment_rec c = some r := by
  unfold GHC.issue_comment_step
  by_cases hc : c.created_at ≥ since
  · rw [if_pos hc]
    cases hr : GHC.comment_rec c with
    | none => simp [ge_iff_le] at hc; simp [hc]
    | some r' => simp [ge_iff_le] at hc; simp [hc, eq_comm]
  · rw [if_neg hc]
    simp [ge_iff_le] at hc
    simp
    intro h
    omega

/-- Characterisation of the exact issue-comment loop body: a record is
appended iff `start <= created_at <= stop` (inclusive both ends) and the
user is non-null. -/
theorem issue_comment_step_exact_eq {start stop : Int} {c : RawComment} {r : CommentRec} :
    GHC.issue_comment_step_exact start stop c = some (some r) ↔
      (start ≤ c.created_at ∧ c.created_at ≤ stop) ∧ GHC.comment_rec c = some r := by
  unfold GHC.issue_comment_step_exact
  by_cases hc : start ≤ c.created_at ∧ c.created_at ≤ stop
  · rw [if_pos hc]
    cases hr : GHC.comment_rec c with
    | none => simp [hc]
    | some r' => simp [hc, eq_comm]
  · rw [if_neg hc]
    simp [hc]

/-- Membership in a successful rolling `_get_issue_comments` run. -/
theorem get_issue_comments_mem {since : Int} {data : List RawComment}
    {out : List CommentRec} (h : GHC._get_issue_comments since data = some out)
    {r : CommentRec} :
    r ∈ out ↔ ∃ c ∈ data, since ≤ c.created_at ∧ GHC.comment_rec c = some r := by
  unfold GHC._get_issue_comments at h
  cases hco : collectOrFail (GHC.issue_comment_step since) data with
  | none => rw [hco] at h; cases h
  | some mid =>
    rw [hco] at h
    simp at h
    subst h
    unfold GHC.sortByCreated
    rw [List.mem_mergeSort, collectOrFail_mem hco]
    simp only [issue_comment_step_eq]

/-- Membership in a successful exact `_get_issue_comments_exact` run. -/
theorem get_issue_comments_exact_mem {start stop : Int} {data : List RawComment}
    {out : List CommentRec} (h : GHC._get_issue_comments_exact start stop data = some out)
    {r : CommentRec} :
    r ∈ out ↔ ∃ c ∈ data, (start ≤ c.created_at ∧ c.created_at ≤ stop) ∧
      GHC.comment_rec c = some r := by
  unfold GHC._get_issue_comments_exact at h
  cases hco : collectOrFail (GHC.issue_comment_step_exact start stop) data with
  | none => rw [hco] at h; cases h
  | some mid =>
    rw [hco] at h
    simp at h
    subst h
    unfold GHC.sortByCreated
    rw [List.mem_mergeSort, collectOrFail_mem hco]
    simp only [issue_comment_step_exact_eq]

/-- C2 (corrected).  In the GraphQL pipeline (`main.py`,
`collect_recent_comments_and_prs`) rolling-window membership is strict in all
three places: an issue-comment entry exists exactly for comments with
`created_at > cutoff`, a PR comment at exactly the cutoff is flagged
`is_recent = false`, and an incident with no comment strictly after the
cutoff and `updated_at` not strictly after it is excluded.  In
`GitHubCollector._get_issue_comments` (rolling mode), however, the membership
test is `created_at >= since` — inclusive at the cutoff. -/
theorem c2_rolling_window_membership :
    (∀ (resolve : RIssue → Option RIssue) (cutoff : Int) (item : MIssue)
      (e : CommentEntry), e ∈ MainPy.issue_comment_entries resolve cutoff item →
        e.created_at > cutoff)
    ∧ (∀ (resolve : RIssue → Option RIssue) (cutoff : Int) (item : MIssue)
      (c : GComment), item.is_issue = true → c ∈ item.comments → c.createdAt > cutoff →
        ∃ e ∈ MainPy.issue_comment_entries resolve cutoff item,
          e.created_at = c.createdAt ∧ e.body = c.body)
    ∧ (∀ (cutoff : Int) (c : GComment), c.createdAt = cutoff →
        (MainPy.mk_pr_comment cutoff c).is_recent = false)
    ∧ (∀ (cutoff : Int) (inc : GIncident),
        (∀ c ∈ inc.comments, c.createdAt ≤ cutoff) → inc.updatedAt ≤ cutoff →
        MainPy.incident_entry cutoff inc = none)
    ∧ (∀ (since : Int) (data : List RawComment) (out : List CommentRec) (r : CommentRec),
        GHC._get_issue_comments since data = some out →
        (r ∈ out ↔ ∃ c ∈ data, since ≤ c.created_at ∧ GHC.comment_rec c = some r)) := by
  refine ⟨?_, ?_, ?_, ?_, ?_⟩
  · intro resolve cutoff item e he
    simp only [MainPy.issue_comment_entries] at he
    split at he
    · simp only [List.mem_filterMap] at he
      obtain ⟨c, _hc, hce⟩ := he
      by_cases hgt : c.createdAt > cutoff
      · rw [if_pos hgt] at hce
        cases hce
        exact hgt
      · rw [if_neg hgt] at hce
        cases hce
    · simp at he
  · intro resolve cutoff item c hi hc hgt
    refine ⟨⟨"issue_comment", item.url, item.title, (resolve item.proj).map (·.url),
      (resolve item.proj).map (·.title), authorOr c.author, c.createdAt, c.body⟩, ?_, rfl, rfl⟩
    simp only [MainPy.issue_comment_entries, hi, if_true]
    exact List.mem_filterMap.mpr ⟨c, hc, by rw [if_pos hgt]⟩
  · intro cutoff c h
    simp [MainPy.mk_pr_comment, h]
  · intro cutoff inc h1 h2
    have ha : inc.comments.any (fun c => decide (c.createdAt > cutoff)) = false := by
      rw [List.any_eq_false]
      intro c hc
      simpa using h1 c hc
    have hb : decide (inc.updatedAt > cutoff) = false := by
      simpa using h2
    simp [MainPy.incident_entry, ha, hb]
  · intro since data out r h
    exact get_issue_comments_mem h

/-- C2 counterexample to strictness: a comment whose timestamp equals the
rolling cutoff (5) is INCLUDED by the collector's `_get_issue_comments`
(whose test is `>=`), where the claim requires it excluded. -/
theorem c2_boundary_counterexample :
    GHC._get_issue_comments 5 [⟨1, some "u", "b", 5, "url", none, none⟩] =
      some [⟨1, "u", "b", 5, "url"⟩] := by
  simp [GHC._get_issue_comments, collectOrFail, GHC.issue_comment_step,
    GHC.comment_rec, GHC.sortByCreated]

/-- C2 witness: a comment strictly inside the window (created at 3, cutoff 0)
yields an entry whose timestamp is strictly above the cutoff. -/
theorem c2_witness :
    (⟨"issue_comment", "iu", "it", none, none, "u", 3, "hi"⟩ : CommentEntry).created_at > 0 :=
  c2_rolling_window_membership.1 (fun _ => none) 0
    ⟨true, "iu", "it", none, [], [⟨some "u", 3, "hi"⟩]⟩
    ⟨"issue_comment", "iu", "it", none, none, "u", 3, "hi"⟩
    (by decide)

/-- Characterisation of the exact PR issue-comment loop body. -/
theorem pr_issue_comment_step_exact_eq {start stop : Int} {c : RawComment}
    {r : PRCommentRec} :
    GHC.pr_issue_comment_step_exact start stop c = some (some r) ↔
      (start ≤ c.created_at ∧ c.created_at ≤ stop) ∧ GHC.pr_issue_comment_rec c = some r := by
  unfold GHC.pr_issue_comment_step_exact
  by_cases hc : start ≤ c.created_at ∧ c.created_at ≤ stop
  · rw [if_pos hc]
    cases hr : GHC.pr_issue_comment_rec c with
    | none => simp [hc]
    | some r' => simp [hc, eq_comm]
  · rw [if_neg hc]
    simp [hc]

/-- Characterisation of the exact PR review-comment loop body. -/
theorem pr_review_comment_step_exact_eq {start stop : Int} {c : RawComment}
    {r : PRCommentRec} :
    GHC.pr_review_comment_step_exact start stop c = some (some r) ↔
      (start ≤ c.created_at ∧ c.created_at ≤ stop) ∧ GHC.pr_review_comment_rec c = some r := by
  unfold GHC.pr_review_comment_step_exact
  by_cases hc : start ≤ c.created_at ∧ c.created_at ≤ stop
  · rw [if_pos hc]
    cases hr : GHC.pr_review_comment_rec c with
    | none => simp [hc]
    | some r' => simp [hc, eq_comm]
  · rw [if_neg hc]
    simp [hc]

/-- Membership in a successful `_get_pr_comments_exact` run: a record comes
from an in-range issue-API comment or an in-range review comment, in both
cases inclusively at the ends. -/
theorem get_pr_comments_exact_mem {start stop : Int} {ics rcs : List RawComment}
    {out : List PRCommentRec} (h : GHC._get_pr_comments_exact start stop ics rcs = some out)
    {r : PRCommentRec} :
    r ∈ out ↔
      (∃ c ∈ ics, (start ≤ c.created_at ∧ c.created_at ≤ stop) ∧
        GHC.pr_issue_comment_rec c = some r)
      ∨ (∃ c ∈ rcs, (start ≤ c.created_at ∧ c.created_at ≤ stop) ∧
        GHC.pr_review_comment_rec c = some r) := by
  unfold GHC._get_pr_comments_exact at h
  cases h1 : collectOrFail (GHC.pr_issue_comment_step_exact start stop) ics with
  | none => rw [h1] at h; cases h
  | some l1 =>
    rw [h1] at h
    cases h2 : collectOrFail (GHC.pr_review_comment_step_exact start stop) rcs with
    | none => rw [h2] at h; cases h
    | some l2 =>
      rw [h2] at h
      simp only [Option.some.injEq] at h
      subst h
      unfold GHC.sortPRByCreated
      rw [List.mem_mergeSort, List.mem_append, collectOrFail_mem h1, collectOrFail_mem h2]
      simp only [pr_issue_comment_step_exact_eq, pr_review_comment_step_exact_eq]

/-- A fold preserves any invariant its step preserves. -/
theorem foldl_preserve {β γ : Type _} {P : β → Prop} {f : β → γ → β}
    (hf : ∀ b a, P b → P (f b a)) : ∀ (l : List γ) (b : β), P b → P (l.foldl f b) := by
  intro l
  induction l with
  | nil => intro b hb; exact hb
  | cons a l ih => intro b hb; exact ih (f b a) (hf b a hb)

/-- Every commit kept by the exact-mode loop body is in range (or was already
in the accumulator). -/
theorem add_commit_exact_range {start stop : Int} {repo branch : String}
    {acc : List CommitInfo} {c : RawCommit}
    (hacc : ∀ x ∈ acc, start ≤ x.date ∧ x.date ≤ stop) :
    ∀ x ∈ GHC.add_commit_exact start stop repo branch acc c,
      start ≤ x.date ∧ x.date ≤ stop := by
  intro x hx
  unfold GHC.add_commit_exact at hx
  by_cases hr : start ≤ c.date ∧ c.date ≤ stop
  · rw [if_pos hr] at hx
    unfold GHC.add_commit at hx
    by_cases hdup : acc.any (fun e => e.sha == c.sha)
    · rw [if_pos hdup] at hx
      exact hacc x hx
    · rw [if_neg hdup] at hx
      rcases List.mem_append.mp hx with hx | hx
      · exact hacc x hx
      · rcases List.mem_singleton.mp hx with rfl
        exact hr
  · rw [if_neg hr] at hx
    exact hacc x hx

/-- Every commit in an exact-mode per-repository result is in range. -/
theorem get_commits_exact_range {start stop : Int}
    {branch_commits : List (String × List RawCommit)} {repo : String} :
    ∀ ci ∈ GHC.get_commits_for_repo_exact start stop branch_commits repo,
      start ≤ ci.date ∧ ci.date ≤ stop := by
  intro ci hci
  unfold GHC.get_commits_for_repo_exact GHC.sortCommitsDesc at hci
  rw [List.mem_mergeSort] at hci
  refine foldl_preserve (P := fun acc => ∀ x ∈ acc, start ≤ x.date ∧ x.date ≤ stop)
    ?_ branch_commits [] (by simp) ci hci
  intro acc bc hacc
  exact foldl_preserve (P := fun acc => ∀ x ∈ acc, start ≤ x.date ∧ x.date ≤ stop)
    (fun a c ha => add_commit_exact_range ha) bc.2 acc hacc

/-- C5 (confirmed).  Exact-range membership is inclusive at both ends in
every place exact filtering is applied: issue comments
(`_get_issue_comments_exact`), PR comments (`_get_pr_comments_exact`, both
comment kinds), and commits (`get_commits_for_exact_period`): every collected
commit satisfies `start ≤ date ≤ stop`, and a commit dated exactly `start` or
exactly `stop` is collected. -/
theorem c5_exact_range_inclusive :
    (∀ (start stop : Int) (data : List RawComment) (out : List CommentRec) (r : CommentRec),
      GHC._get_issue_comments_exact start stop data = some out →
      (r ∈ out ↔ ∃ c ∈ data, (start ≤ c.created_at ∧ c.created_at ≤ stop) ∧
        GHC.comment_rec c = some r))
    ∧ (∀ (start stop : Int) (ics rcs : List RawComment) (out : List PRCommentRec)
      (r : PRCommentRec), GHC._get_pr_comments_exact start stop ics rcs = some out →
      (r ∈ out ↔
        (∃ c ∈ ics, (start ≤ c.created_at ∧ c.created_at ≤ stop) ∧
          GHC.pr_issue_comment_rec c = some r)
        ∨ (∃ c ∈ rcs, (start ≤ c.created_at ∧ c.created_at ≤ stop) ∧
          GHC.pr_review_comment_rec c = some r)))
    ∧ (∀ (start stop : Int) (branch_commits : List (String × List RawCommit))
      (repo : String) (ci : CommitInfo),
      ci ∈ GHC.get_commits_for_repo_exact start stop branch_commits repo →
      start ≤ ci.date ∧ ci.date ≤ stop)
    ∧ (∀ (start stop : Int) (repo branch : String) (c : RawCommit),
      start ≤ c.date → c.date ≤ stop →
      GHC.commit_info repo branch c ∈
        GHC.get_commits_for_repo_exact start stop [(branch, [c])] repo) := by
  refine ⟨?_, ?_, ?_, ?_⟩
  · intro start stop data out r h
    exact get_issue_comments_exact_mem h
  · intro start stop ics rcs out r h
    exact get_pr_comments_exact_mem h
  · intro start stop branch_commits repo ci hci
    exact get_commits_exact_range ci hci
  · intro start stop repo branch c h1 h2
    unfold GHC.get_commits_for_repo_exact GHC.sortCommitsDesc
    rw [List.mem_mergeSort]
    simp only [List.foldl_cons, List.foldl_nil]
    unfold GHC.add_commit_exact GHC.add_commit
    rw [if_pos ⟨h1, h2⟩]
    simp

/-- C5 witness: with the range [0, 10], a commit dated exactly 0 and a commit
dated exactly 10 are both collected, and an issue comment dated exactly at
the range start is a member of the exact-mode result. -/
theorem c5_witness :
    GHC.commit_info "r" "main" ⟨"s1", "m", some "a", "an", 0, "u"⟩ ∈
      GHC.get_commits_for_repo_exact 0 10 [("main", [⟨"s1", "m", some "a", "an", 0, "u"⟩])] "r" ∧
    GHC.commit_info "r" "main" ⟨"s2", "m", some "a", "an", 10, "u"⟩ ∈
      GHC.get_commits_for_repo_exact 0 10 [("main", [⟨"s2", "m", some "a", "an", 10, "u"⟩])] "r" ∧
    (⟨1, "u", "b", 0, "url"⟩ : CommentRec) ∈ [(⟨1, "u", "b", 0, "url"⟩ : CommentRec)] := by
  refine ⟨c5_exact_range_inclusive.2.2.2 0 10 "r" "main" _ (by decide) (by decide),
    c5_exact_range_inclusive.2.2.2 0 10 "r" "main" _ (by decide) (by decide), ?_⟩
  refine (c5_exact_range_inclusive.1 0 10 [⟨1, some "u", "b", 0, "url", none, none⟩]
    [⟨1, "u", "b", 0, "url"⟩] ⟨1, "u", "b", 0, "url"⟩ ?_).mpr
    ⟨⟨1, some "u", "b", 0, "url", none, none⟩, by decide, by decide, by decide⟩
  simp [GHC._get_issue_comments_exact, collectOrFail, GHC.issue_comment_step_exact,
    GHC.comment_rec, GHC.sortByCreated]

/-- The rolling commit loop body preserves SHA-distinctness of the
accumulator. -/
theorem add_commit_pairwise {repo branch : String} {acc : List CommitInfo} {c : RawCommit}
    (h : acc.Pairwise (fun a b => a.sha ≠ b.sha)) :
    (GHC.add_commit repo branch acc c).Pairwise (fun a b => a.sha ≠ b.sha) := by
  unfold GHC.add_commit
  by_cases hdup : acc.any (fun e => e.sha == c.sha)
  · rw [if_pos hdup]; exact h
  · rw [if_neg hdup]
    rw [List.pairwise_append]
    refine ⟨h, List.pairwise_singleton _ _, ?_⟩
    intro a ha b hb
    rcases List.mem_singleton.mp hb with rfl
    show a.sha ≠ c.sha
    intro he
    exact hdup (List.any_eq_true.mpr ⟨a, ha, by simp [he]⟩)

/-- The exact-mode commit loop body preserves SHA-distinctness of the
accumulator. -/
theorem add_commit_exact_pairwise {start stop : Int} {repo branch : String}
    {acc : List CommitInfo} {c : RawCommit}
    (h : acc.Pairwise (fun a b => a.sha ≠ b.sha)) :
    (GHC.add_commit_exact start stop repo branch acc c).Pairwise (fun a b => a.sha ≠ b.sha) := by
  unfold GHC.add_commit_exact
  by_cases hr : start ≤ c.date ∧ c.date ≤ stop
  · rw [if_pos hr]; exact add_commit_pairwise h
  · rw [if_neg hr]; exact h

/-- Sorting preserves SHA-distinctness (it permutes the list). -/
theorem sortCommitsDesc_pairwise {l : List CommitInfo}
    (h : l.Pairwise (fun a b => a.sha ≠ b.sha)) :
    (GHC.sortCommitsDesc l).Pairwise (fun a b => a.sha ≠ b.sha) := by
  unfold GHC.sortCommitsDesc
  exact ((List.mergeSort_perm l _).pairwise_iff (fun h => Ne.symm h)).mpr h

/-- C6 (confirmed).  In both rolling and exact mode, a repository's collected
commit list never contains two entries with the same SHA: the per-commit
dedup check runs across every branch of the repository, and the final sort
only permutes the list. -/
theorem c6_commit_sha_dedup :
    (∀ (branch_commits : List (String × List RawCommit)) (repo : String),
      (GHC.get_commits_for_repo branch_commits repo).Pairwise (fun a b => a.sha ≠ b.sha))
    ∧ (∀ (start stop : Int) (branch_commits : List (String × List RawCommit)) (repo : String),
      (GHC.get_commits_for_repo_exact start stop branch_commits repo).Pairwise
        (fun a b => a.sha ≠ b.sha)) := by
  constructor
  · intro branch_commits repo
    unfold GHC.get_commits_for_repo
    refine sortCommitsDesc_pairwise ?_
    refine foldl_preserve (P := fun acc : List CommitInfo =>
      acc.Pairwise (fun a b => a.sha ≠ b.sha)) ?_ branch_commits [] (List.Pairwise.nil)
    intro acc bc hacc
    exact foldl_preserve (P := fun acc : List CommitInfo =>
      acc.Pairwise (fun a b => a.sha ≠ b.sha))
      (fun a c ha => add_commit_pairwise ha) bc.2 acc hacc
  · intro start stop branch_commits repo
    unfold GHC.get_commits_for_repo_exact
    refine sortCommitsDesc_pairwise ?_
    refine foldl_preserve (P := fun acc : List CommitInfo =>
      acc.Pairwise (fun a b => a.sha ≠ b.sha)) ?_ branch_commits [] (List.Pairwise.nil)
    intro acc bc hacc
    exact foldl_preserve (P := fun acc : List CommitInfo =>
      acc.Pairwise (fun a b => a.sha ≠ b.sha))
      (fun a c ha => add_commit_exact_pairwise ha) bc.2 acc hacc

/-- What it takes for the project branch of `get_issues_for_period` to keep an
issue: its filtered comment list is non-empty (and is the attached list). -/
theorem project_issue_include_some {commentsOf : PIssue → List RawComment} {since : Int}
    {issue : PIssue} {io : PIssueOut}
    (h : GHC.project_issue_include commentsOf since issue = some (some io)) :
    io.issue = issue ∧ ¬ io.comments.isEmpty ∧
      GHC._get_issue_comments since (commentsOf issue) = some io.comments := by
  unfold GHC.project_issue_include at h
  split at h
  · split at h
    · exact absurd h (by simp)
    · rename_i cs heq
      split at h
      · exact absurd h (by simp)
      · rename_i he
        cases h
        exact ⟨rfl, he, heq⟩
  · exact absurd h (by simp)

/-- What it takes for the fallback branch of `get_issues_for_period` to keep
an issue: likewise a non-empty filtered comment list. -/
theorem repo_issue_include_some {commentsOf : RawIssue → List RawComment} {since : Int}
    {repo : String} {issue : RawIssue} {info : IssueInfo}
    (h : GHC.repo_issue_include commentsOf since repo issue = some (some info)) :
    ¬ info.comments.isEmpty ∧
      GHC._get_issue_comments since (commentsOf issue) = some info.comments := by
  unfold GHC.repo_issue_include at h
  split at h
  · exact absurd h (by simp)
  · split at h
    · exact absurd h (by simp)
    · split at h
      · exact absurd h (by simp)
      · rename_i cs heq
        split at h
        · exact absurd h (by simp)
        · rename_i he
          cases h
          exact ⟨he, heq⟩

/-- Every record of a successful rolling `_get_issue_comments` run is
in-window. -/
theorem get_issue_comments_in_window {since : Int} {data : List RawComment}
    {out : List CommentRec} (h : GHC._get_issue_comments since data = some out) :
    ∀ r ∈ out, since ≤ r.created_at := by
  intro r hr
  obtain ⟨c, _hc, hle, hrec⟩ := (get_issue_comments_mem h).mp hr
  rw [comment_rec_created_at hrec]
  exact hle

/-- C7 (confirmed).  An issue with zero in-window comments is dropped
everywhere: both branches of `get_issues_for_period` retain an issue only if
its filtered (in-window) comment list is non-empty; in `main.py` an item none
of whose comments is strictly after the cutoff contributes no entry to the
JSON `recent_comments` list; and the Markdown Case-grouped sections contain
only issues with a non-empty attached comment list. -/
theorem c7_zero_comment_issue_dropped :
    (∀ (commentsOf : PIssue → List RawComment) (since : Int) (pIssues : List PIssue)
      (out : List PIssueOut), GHC.get_issues_for_period_project commentsOf since pIssues = some out →
      ∀ io ∈ out, ∃ r ∈ io.comments, since ≤ r.created_at)
    ∧ (∀ (commentsOf : RawIssue → List RawComment) (since : Int) (per_page : Nat)
      (listing : List RawIssue) (repo : String) (out : List IssueInfo),
      GHC.get_issues_for_repo commentsOf since per_page listing repo = some out →
      ∀ info ∈ out, ∃ r ∈ info.comments, since ≤ r.created_at)
    ∧ (∀ (resolve : RIssue → Option RIssue) (cutoff : Int) (item : MIssue),
      (∀ c ∈ item.comments, c.createdAt ≤ cutoff) →
      MainPy.issue_comment_entries resolve cutoff item = [])
    ∧ (∀ (fetch : String → Option ParentData) (issues_data : List PIssueOut)
      (k : String) (io : PIssueOut),
      (k, io) ∈ RG.issues_section_pairs fetch issues_data → ¬ io.comments.isEmpty) := by
  refine ⟨?_, ?_, ?_, ?_⟩
  · intro commentsOf since pIssues out h io hio
    obtain ⟨issue, _hmem, hinc⟩ := (collectOrFail_mem h).mp hio
    obtain ⟨_, hne, hg⟩ := project_issue_include_some hinc
    obtain ⟨r, hr⟩ := List.exists_mem_of_ne_nil io.comments (by simpa using hne)
    exact ⟨r, hr, get_issue_comments_in_window hg r hr⟩
  · intro commentsOf since per_page listing repo out h info hinfo
    obtain ⟨issue, _hmem, hinc⟩ := (collectOrFail_mem h).mp hinfo
    obtain ⟨hne, hg⟩ := repo_issue_include_some hinc
    obtain ⟨r, hr⟩ := List.exists_mem_of_ne_nil info.comments (by simpa using hne)
    exact ⟨r, hr, get_issue_comments_in_window hg r hr⟩
  · intro resolve cutoff item hall
    unfold MainPy.issue_comment_entries
    split
    · refine List.filterMap_eq_nil_iff.mpr ?_
      intro c hc
      rw [if_neg]
      simpa using hall c hc
    · rfl
  · intro fetch issues_data k io hmem
    unfold RG.issues_section_pairs at hmem
    rw [List.mem_filterMap] at hmem
    obtain ⟨io', _hio', heq⟩ := hmem
    by_cases he : io'.comments.isEmpty
    · rw [if_pos he] at heq; cases heq
    · rw [if_neg he] at heq
      cases hres : GHC.find_case_parent fetch 10
          ⟨io'.issue.title, io'.issue.url, none, io'.issue.labels⟩ with
      | none => rw [hres] at heq; cases heq
      | some pc =>
        rw [hres] at heq
        cases heq
        exact he

/-- C7 witness: an item whose only comment sits exactly at the cutoff (not
strictly inside the window) contributes nothing to `recent_comments`, and a
concrete Case-grouped pair carries a non-empty comment list. -/
theorem c7_witness :
    MainPy.issue_comment_entries (fun _ => none) 0
      ⟨true, "iu", "it", none, [], [⟨some "u", 0, "old"⟩]⟩ = [] ∧
    ¬ (⟨⟨1, "t", "u", "open", "a", 0, 5, "repo", ["Case"], [], none⟩,
        [⟨1, "u", "b", 3, "url"⟩]⟩ : PIssueOut).comments.isEmpty := by
  constructor
  · exact c7_zero_comment_issue_dropped.2.2.1 (fun _ => none) 0
      ⟨true, "iu", "it", none, [], [⟨some "u", 0, "old"⟩]⟩ (by decide)
  · exact c7_zero_comment_issue_dropped.2.2.2 (fun _ => none)
      [⟨⟨1, "t", "u", "open", "a", 0, 5, "repo", ["Case"], [], none⟩, [⟨1, "u", "b", 3, "url"⟩]⟩]
      (RG.case_key ⟨"t", "u", none, ["Case"]⟩)
      ⟨⟨1, "t", "u", "open", "a", 0, 5, "repo", ["Case"], [], none⟩, [⟨1, "u", "b", 3, "url"⟩]⟩
      (by decide)

/-- C8 (corrected).  The GraphQL pipeline (`main.py`) tolerates null comment
authors, attributing them to `"unknown"`; but the REST collector's
`_get_issue_comments` reads `comment["user"]["login"]` with no null guard, so
one in-window comment with a null user makes the whole call raise instead of
returning a list. -/
theorem c8_null_author_handling :
    (∀ (resolve : RIssue → Option RIssue) (cutoff : Int) (item : MIssue) (c : GComment),
      item.is_issue = true → c ∈ item.comments → c.createdAt > cutoff → c.author = none →
      ∃ e ∈ MainPy.issue_comment_entries resolve cutoff item,
        e.author = "unknown" ∧ e.created_at = c.createdAt ∧ e.body = c.body)
    ∧ (∀ (since : Int) (data : List RawComment) (c : RawComment),
      c ∈ data → c.user = none → since ≤ c.created_at →
      GHC._get_issue_comments since data = none) := by
  constructor
  · intro resolve cutoff item c hi hc hgt hauth
    refine ⟨⟨"issue_comment", item.url, item.title, (resolve item.proj).map (·.url),
      (resolve item.proj).map (·.title), authorOr c.author, c.createdAt, c.body⟩, ?_, ?_, rfl, rfl⟩
    · simp only [MainPy.issue_comment_entries, hi, if_true]
      exact List.mem_filterMap.mpr ⟨c, hc, by rw [if_pos hgt]⟩
    · simp [authorOr, hauth]
  · intro since data c hmem huser hwin
    have hstep : GHC.issue_comment_step since c = none := by
      simp [GHC.issue_comment_step, GHC.comment_rec, huser, hwin]
    unfold GHC._get_issue_comments
    rw [collectOrFail_eq_none hmem hstep]
    rfl

/-- C8 counterexample: a single in-window comment whose user is null makes
the collector's `_get_issue_comments` raise (`none`), where the claim expects
a successful result attributing the comment to `"unknown"`. -/
theorem c8_null_author_counterexample :
    GHC._get_issue_comments 0 [⟨7, none, "hello", 10, "u7", none, none⟩] = none := by
  decide

/-- C8 witness: in the GraphQL pipeline a null-author comment inside the
window yields an entry attributed to `"unknown"`; in the collector a
null-user in-window comment makes the call raise. -/
theorem c8_witness :
    (∃ e ∈ MainPy.issue_comment_entries (fun _ => none) 0
        ⟨true, "iu", "it", none, [], [⟨none, 3, "hi"⟩]⟩,
      e.author = "unknown" ∧ e.created_at = (3 : Int) ∧ e.body = "hi") ∧
    GHC._get_issue_comments 1 [⟨7, none, "hello", 10, "u7", none, none⟩] = none := by
  constructor
  · exact c8_null_author_handling.1 (fun _ => none) 0
      ⟨true, "iu", "it", none, [], [⟨none, 3, "hi"⟩]⟩ ⟨none, 3, "hi"⟩
      rfl (by decide) (by decide) rfl
  · exact c8_null_author_handling.2 1 [⟨7, none, "hello", 10, "u7", none, none⟩]
      ⟨7, none, "hello", 10, "u7", none, none⟩ (by decide) rfl (by decide)

/-- C3 (code_bug).  Telegram-channel failures are indeed non-fatal: with the
Zulip channel not requested, the run exits 0 whatever the Telegram outcome.
But any run that requests the Zulip channel exits 1 — even though the report
file was already saved — because `send_to_zulip` reads `config.zulip_email`
(outside its try block) and `Config` defines no such attribute, so the
`AttributeError` escapes to `main`'s handler, contradicting the claim that
notification failures only get logged. -/
theorem c3_notification_exit_codes :
    (∀ (cfg : Config) (tf tOutcome zOutcome : Bool),
      SrcMain.main_exit_code cfg tf false tOutcome zOutcome = 0)
    ∧ (∀ (cfg : Config) (tf tOutcome zOutcome : Bool),
      SrcMain.main_exit_code cfg tf true tOutcome zOutcome = 1) := by
  constructor
  · intro cfg tf tOutcome zOutcome
    cases tf <;> rfl
  · intro cfg tf tOutcome zOutcome
    cases tf <;> rfl

/-- A `dropWhile` over elements none of which satisfies the predicate is the
identity. -/
theorem dropWhile_eq_self_of_forall {p : Char → Bool} {l : List Char}
    (h : ∀ c ∈ l, ¬ p c = true) : l.dropWhile p = l := by
  cases l with
  | nil => rfl
  | cons a l => rw [List.dropWhile_cons, if_neg (h a (List.mem_cons_self a l))]

/-- Python `str.strip()` leaves a string with no whitespace at all unchanged. -/
theorem pyStrip_eq_self {l : List Char} (h : ∀ c ∈ l, ¬ pyIsSpace c = true) :
    pyStrip l = l := by
  unfold pyStrip
  rw [dropWhile_eq_self_of_forall h,
    dropWhile_eq_self_of_forall (fun c hc => h c (List.mem_reverse.mp hc)),
    List.reverse_reverse]

/-- Blank-run collapsing leaves a newline-free string unchanged. -/
theorem collapse_no_newline : ∀ {l : List Char}, '\n' ∉ l → collapseBlankRuns l = l := by
  intro l
  induction l with
  | nil => intro _; simp [collapseBlankRuns]
  | cons c rest ih =>
    intro h
    have hc : ¬ c = '\n' := by
      intro h'
      exact h (h' ▸ List.mem_cons_self c rest)
    rw [collapseBlankRuns, if_neg hc, ih (fun hm => h (List.mem_cons_of_mem c hm))]

unseal collapseBlankRuns in
/-- C9 (confirmed).  `_format_comment` first collapses blank-line runs (a run
of blank lines becomes one blank line — shown on a concrete 3-blank-line
run), then truncates: whenever the collapsed body exceeds 500 characters the
Markdown rendering is exactly its first 500 characters plus the 3-character
ellipsis (503 total), otherwise it is the collapsed body unchanged; and the
JSON pipeline carries every comment body through at full, untruncated
length. -/
theorem c9_truncation_and_full_json :
    (∀ body : String,
      500 < (collapseBlankRuns (pyStrip body.data)).length →
      (RG._format_comment body).data =
        (collapseBlankRuns (pyStrip body.data)).take 500 ++ "...".data ∧
      (RG._format_comment body).data.length = 503)
    ∧ (∀ body : String,
      (collapseBlankRuns (pyStrip body.data)).length ≤ 500 →
      (RG._format_comment body).data = collapseBlankRuns (pyStrip body.data))
    ∧ collapseBlankRuns ("a\n\n\n\nb").data = ("a\n\nb").data
    ∧ (∀ (resolve : RIssue → Option RIssue) (cutoff : Int) (item : MIssue)
      (e : CommentEntry), e ∈ MainPy.issue_comment_entries resolve cutoff item →
      ∃ c ∈ item.comments, e.body = c.body) := by
  refine ⟨?_, ?_, by decide, ?_⟩
  · intro body h
    unfold RG._format_comment
    rw [if_pos h]
    refine ⟨rfl, ?_⟩
    simp [List.length_append, List.length_take]
    omega
  · intro body h
    unfold RG._format_comment
    rw [if_neg (by omega)]
  · intro resolve cutoff item e he
    simp only [MainPy.issue_comment_entries] at he
    split at he
    · simp only [List.mem_filterMap] at he
      obtain ⟨c, hc, hce⟩ := he
      by_cases hgt : c.createdAt > cutoff
      · rw [if_pos hgt] at hce
        cases hce
        exact ⟨c, hc, rfl⟩
      · rw [if_neg hgt] at hce
        cases hce
    · simp at he

/-- C9 witness: a 600-character body (600 `'a'`s) has a collapsed length of
600 > 500, renders in Markdown as exactly 503 characters (500 plus the
ellipsis), and its JSON-side length stays 600. -/
theorem c9_witness :
    500 < (collapseBlankRuns (pyStrip (String.mk (List.replicate 600 'a')).data)).length ∧
    (RG._format_comment (String.mk (List.replicate 600 'a'))).data.length = 503 ∧
    (String.mk (List.replicate 600 'a')).length = 600 := by
  have hs : pyStrip (String.mk (List.replicate 600 'a')).data = List.replicate 600 'a' := by
    apply pyStrip_eq_self
    intro c hc
    rw [List.eq_of_mem_replicate hc]
    decide
  have hnl : ('\n') ∉ List.replicate 600 'a' := by
    intro hm
    have h' := List.eq_of_mem_replicate hm
    simp at h'
  have hcl : collapseBlankRuns (pyStrip (String.mk (List.replicate 600 'a')).data) =
      List.replicate 600 'a' := by
    rw [hs]
    exact collapse_no_newline hnl
  refine ⟨by rw [hcl, List.length_replicate]; omega, ?_,
    by rw [show (String.mk (List.replicate 600 'a')).length =
      (List.replicate 600 'a').length from rfl, List.length_replicate]⟩
  have h := (c9_truncation_and_full_json.1 (String.mk (List.replicate 600 'a'))
    (by rw [hcl, List.length_replicate]; omega))
  exact h.2

/-- A kept rolling-mode PR entry carries the number and URL of its raw PR. -/
theorem pr_include_some {since : Int} {icOf rcOf : RawPR → List RawComment}
    {repo : String} {pr : RawPR} {p : PRInfo}
    (h : GHC.pr_include since icOf rcOf repo pr = some (some p)) :
    p.number = pr.number ∧ p.url = pr.html_url := by
  unfold GHC.pr_include at h
  split at h
  · exact absurd h (by simp)
  · split at h
    · exact absurd h (by simp)
    · split at h
      · cases h
        exact ⟨rfl, rfl⟩
      · exact absurd h (by simp)

/-- A kept exact-mode PR entry carries the number and URL of its raw PR. -/
theorem pr_include_exact_some {start stop : Int} {icOf rcOf : RawPR → List RawComment}
    {repo : String} {pr : RawPR} {p : PRInfo}
    (h : GHC.pr_include_exact start stop icOf rcOf repo pr = some (some p)) :
    p.number = pr.number ∧ p.url = pr.html_url := by
  unfold GHC.pr_include_exact at h
  split at h
  · exact absurd h (by simp)
  · split at h
    · exact absurd h (by simp)
    · split at h
      · cases h
        exact ⟨rfl, rfl⟩
      · exact absurd h (by simp)

/-- C10 (confirmed).  PR collection issues a single unpaginated listing
request per repository: in both rolling and exact mode, every collected PR
entry originates from the first `per_page` entries of the updated-descending
listing — a PR beyond that single page is never examined, whatever its
activity. -/
theorem c10_pr_single_page :
    (∀ (listing : List RawPR) (per_page : Nat) (since : Int)
      (icOf rcOf : RawPR → List RawComment) (repo : String) (out : List PRInfo) (p : PRInfo),
      GHC.get_pull_requests_for_period listing per_page since icOf rcOf repo = some out →
      p ∈ out →
      ∃ raw ∈ listing.take per_page, p.number = raw.number ∧ p.url = raw.html_url)
    ∧ (∀ (listing : List RawPR) (per_page : Nat) (start stop : Int)
      (icOf rcOf : RawPR → List RawComment) (repo : String) (out : List PRInfo) (p : PRInfo),
      GHC.get_pull_requests_for_exact_period listing per_page start stop icOf rcOf repo = some out →
      p ∈ out →
      ∃ raw ∈ listing.take per_page, p.number = raw.number ∧ p.url = raw.html_url) := by
  constructor
  · intro listing per_page since icOf rcOf repo out p h hp
    obtain ⟨raw, hmem, hinc⟩ := (collectOrFail_mem h).mp hp
    exact ⟨raw, hmem, pr_include_some hinc⟩
  · intro listing per_page start stop icOf rcOf repo out p h hp
    obtain ⟨raw, hmem, hinc⟩ := (collectOrFail_mem h).mp hp
    exact ⟨raw, hmem, pr_include_exact_some hinc⟩

/-- C10 witness: with `per_page = 1` and a two-PR listing whose second PR has
in-window activity (updated at 8, created at 3, window cutoff 0), the result
consists of the first PR only — the second is silently omitted — and the
collected entry indeed originates from the one-element page. -/
theorem c10_witness :
    GHC.get_pull_requests_for_period
      [⟨1, "t1", "u1", "open", "a", 5, 9⟩, ⟨2, "t2", "u2", "open", "b", 3, 8⟩] 1 0
      (fun _ => []) (fun _ => []) "repo" =
      some [⟨1, "t1", "u1", "open", "a", 5, 9, [], "repo", true⟩] ∧
    (∃ raw ∈ List.take 1
        [(⟨1, "t1", "u1", "open", "a", 5, 9⟩ : RawPR), ⟨2, "t2", "u2", "open", "b", 3, 8⟩],
      (⟨1, "t1", "u1", "open", "a", 5, 9, [], "repo", true⟩ : PRInfo).number = raw.number ∧
      (⟨1, "t1", "u1", "open", "a", 5, 9, [], "repo", true⟩ : PRInfo).url = raw.html_url) := by
  have hrun : GHC.get_pull_requests_for_period
      [⟨1, "t1", "u1", "open", "a", 5, 9⟩, ⟨2, "t2", "u2", "open", "b", 3, 8⟩] 1 0
      (fun _ => []) (fun _ => []) "repo" =
      some [⟨1, "t1", "u1", "open", "a", 5, 9, [], "repo", true⟩] := by
    simp only [GHC.get_pull_requests_for_period, List.take_succ_cons, List.take_zero]
    simp [collectOrFail, GHC.pr_include, GHC._get_pr_comments, GHC.sortPRByCreated]
  refine ⟨hrun, ?_⟩
  exact c10_pr_single_page.1 _ 1 0 (fun _ => []) (fun _ => []) "repo" _
    ⟨1, "t1", "u1", "open", "a", 5, 9, [], "repo", true⟩ hrun (by simp)
